import Mathlib

/-
Shallow embedding of the sensitive-information detection engine of
src/sensitive_info_detector.py (class SensitiveInfoDetector).

Modelling choices:
  * a Python string is a list of unicode characters (List Char);
  * the regex character class \d is modelled as the ASCII digits (Char.isDigit),
    \s as the ASCII whitespace characters, and \w (used only via the word
    boundary of the ip_address rule) as ASCII alphanumerics, the underscore and
    the CJK ideographs; the repository only ever feeds the engine ASCII and CJK
    text, where these agree with Python's semantics;
  * re.finditer is modelled by a leftmost scan that, at each position, runs a
    pattern-specific matching function reproducing the backtracking priority
    (leftmost-first, greedy with ordered alternatives) of Python's engine and,
    on success, resumes scanning at the end of the match;
  * the ValueError exceptions raised by the detector are modelled with
    Except String.
-/

namespace SensitiveInfo

/-- Python text is modelled as a list of unicode scalar values. -/
abbrev Text := List Char

/-- Python str slicing text[s:e] (indices clamped to the string). -/
def slice (t : Text) (s e : Nat) : Text := (t.drop s).take (e - s)

/-- Python whitespace (the regex class \s restricted to ASCII):
space, tab, newline, carriage return, vertical tab, form feed. -/
def pyIsSpace (c : Char) : Bool :=
  c == ' ' || c == '\t' || c == '\n' || c == '\r' ||
  c == Char.ofNat 11 || c == Char.ofNat 12

/-- Python str.strip(): remove leading and trailing whitespace. -/
def pyStrip (t : Text) : Text :=
  ((t.dropWhile pyIsSpace).reverse.dropWhile pyIsSpace).reverse

/-- Character at an optional position is a digit (class \d). -/
def chDigit (oc : Option Char) : Bool :=
  match oc with
  | some c => c.isDigit
  | none => false

/-- Character at an optional position lies in an inclusive character range. -/
def chInRange (oc : Option Char) (lo hi : Char) : Bool :=
  match oc with
  | some c => decide (lo ≤ c) && decide (c ≤ hi)
  | none => false

/-- n consecutive \d characters starting at position p. -/
def digitsRun (t : Text) (p n : Nat) : Bool :=
  (List.range n).all (fun k => chDigit (t.get? (p + k)))

/-- The zero-width assertion (?!\d) at position p. -/
def noDigitAt (t : Text) (p : Nat) : Bool := !chDigit (t.get? p)

/-- The zero-width assertion (?<!\d) at position p. -/
def noDigitBefore (t : Text) (p : Nat) : Bool :=
  match p with
  | 0 => true
  | q + 1 => !chDigit (t.get? q)

/-- Length of the maximal run of characters satisfying p from position i
(the extent a greedy character-class repetition can consume). -/
def runLen (p : Char → Bool) (t : Text) (i : Nat) : Nat :=
  ((t.drop i).takeWhile p).length

/-- The literal lit occurs at position i. -/
def litAt (t : Text) (i : Nat) (lit : Text) : Bool :=
  slice t i (i + lit.length) == lit

/-- The literal lit (given in lower case) occurs at position i up to
ASCII case, modelling a literal under re.IGNORECASE. -/
def litAtCI (t : Text) (i : Nat) (lit : Text) : Bool :=
  (slice t i (i + lit.length)).map Char.toLower == lit

/-- Numeric value of an ASCII digit character. -/
def charDigit (c : Char) : Nat := c.toNat - '0'.toNat

/-- Python int() on a run of ASCII digits. -/
def natOfDigits (v : Text) : Nat := v.foldl (fun acc c => 10 * acc + charDigit c) 0

/-- A raw syntactic match: start offset, end offset and, when the pattern
has a capturing group that participated, the group's offsets. -/
structure RawMatch where
  s : Nat
  e : Nat
  grp : Option (Nat × Nat)
deriving DecidableEq

/-- Scanning loop of re.finditer: try the pattern at every position from
left to right, and resume after the end of each (non-empty) match.
The fuel argument makes the recursion structural; it is always called
with enough fuel to reach the end of the text. -/
def finditerAux (f : Text → Nat → Option RawMatch) (t : Text) :
    Nat → Nat → List RawMatch
  | 0, _ => []
  | fuel + 1, i =>
    if t.length < i then []
    else
      match f t i with
      | some r => r :: finditerAux f t fuel (max (i + 1) r.e)
      | none => finditerAux f t fuel (i + 1)

/-- re.finditer(pattern, text): all non-overlapping matches, leftmost first. -/
def finditer (f : Text → Nat → Option RawMatch) (t : Text) : List RawMatch :=
  finditerAux f t (t.length + 2) 0

/-- _get_context_text: the raw windowed substring around a match
(context_size characters on each side, clamped to the text). -/
def getContextText (t : Text) (s e n : Nat) : Text :=
  slice t (s - n) (min t.length (e + n))

/-- _get_context: the windowed excerpt with the match visually delimited
by 【 and 】. -/
def getContext (t : Text) (s e n : Nat) : Text :=
  slice t (s - n) s ++ ('【' :: slice t s e) ++ ('】' :: slice t e (min t.length (e + n)))

/-- pat occurs as a contiguous substring of t. -/
def containsSub (t pat : Text) : Bool :=
  (List.range (t.length + 1)).any (fun i => litAt t i pat)

/-- re.search of an alternation of literal keywords inside a context window:
true when some keyword occurs as a substring. -/
def anyKeyword (ks : List Text) (ctx : Text) : Bool :=
  ks.any (fun k => containsSub ctx k)

/- ---------------------------------------------------------------------
phone:  (?:\+?86)?(?<!\d)1[3-9]\d{9}(?!\d)
--------------------------------------------------------------------- -/

/-- The mandatory part (?<!\d)1[3-9]\d{9}(?!\d) of the phone rule starting
at position p; returns the end position on success. -/
def phoneBody (t : Text) (p : Nat) : Option Nat :=
  if noDigitBefore t p && (t.get? p == some '1') && chInRange (t.get? (p + 1)) '3' '9'
      && digitsRun t (p + 2) 9 && noDigitAt t (p + 11)
  then some (p + 11) else none

/-- The phone rule tried at position i.  The optional greedy group
(?:\+?86)? is tried with its alternatives in backtracking priority order:
"+86", then "86", then the empty prefix. -/
def phoneMatchAt (t : Text) (i : Nat) : Option RawMatch :=
  (if t.get? i == some '+' && t.get? (i + 1) == some '8' && t.get? (i + 2) == some '6'
   then (phoneBody t (i + 3)).map (fun e => ⟨i, e, none⟩) else none)
  <|>
  (if t.get? i == some '8' && t.get? (i + 1) == some '6'
   then (phoneBody t (i + 2)).map (fun e => ⟨i, e, none⟩) else none)
  <|>
  (phoneBody t i).map (fun e => ⟨i, e, none⟩)

/-- re.match(r'^1[3-9]\d{9}$', digits): the format re-check of _validate_phone. -/
def phoneFullmatch (ds : Text) : Bool :=
  match ds with
  | c0 :: c1 :: rest =>
    c0 == '1' && decide ('3' ≤ c1) && decide (c1 ≤ '9')
      && rest.all (fun c => c.isDigit) && rest.length == 9
  | _ => false

/-- digits_only of _validate_phone: keep the digit characters of the matched
value and drop a leading 86 when more than 11 digits remain. -/
def phoneDigitsOf (v : Text) : Text :=
  let d0 := v.filter (fun c => c.isDigit)
  if 11 < d0.length ∧ d0.take 2 = ['8', '6'] then d0.drop 2 else d0

/-- Context keywords of _validate_phone. -/
def phoneKeywords : List Text :=
  ["手机".data, "电话".data, "联系".data, "拨打".data, "号码".data]

/-- Known invalid placeholder numbers of _validate_phone. -/
def phoneBlocklist : List Text :=
  ["12345678910".data, "13800138000".data, "13912345678".data]

/-- _validate_phone: format re-check, context keyword boost, placeholder
blocklist, base score 80. -/
def validatePhone (rm : RawMatch) (t : Text) : Nat :=
  if ¬ phoneFullmatch (phoneDigitsOf (slice t rm.s rm.e)) = true then 0
  else if anyKeyword phoneKeywords (getContextText t rm.s rm.e 20) = true then 100
  else if phoneDigitsOf (slice t rm.s rm.e) ∈ phoneBlocklist then 0
  else 80

/- ---------------------------------------------------------------------
password:  (?:密码|password|pwd)[：:]\s*([a-zA-Z0-9@#$%^&*]{6,20})
--------------------------------------------------------------------- -/

/-- The credential character class [a-zA-Z0-9@#$%^&*]. -/
def pwChar (c : Char) : Bool :=
  c.isAlpha || c.isDigit || c == '@' || c == '#' || c == '$' || c == '%'
    || c == '^' || c == '&' || c == '*'

/-- The separator class [：:]. -/
def pwSepChar (c : Char) : Bool := c == '：' || c == ':'

/-- The label alternatives, in the pattern's priority order (matching is
done under re.IGNORECASE, hence the case-insensitive literal test). -/
def pwLabels : List Text := ["密码".data, "password".data, "pwd".data]

/-- Start of the credential capture: the greedy \s* run after the separator
ends here (the credential class has no whitespace, so no backtracking can
move this position). -/
def pwCapStart (t : Text) (p : Nat) : Nat := p + runLen pyIsSpace t p

/-- Length of the greedy credential capture at position q: at most 20 of the
available credential characters. -/
def pwCapLen (t : Text) (q : Nat) : Nat := min (runLen pwChar t q) 20

/-- Continuation of the password rule after a label of length labLen matched
at position i: the separator, the greedy \s* run, then the greedy capture of
6 to 20 credential characters. -/
def pwAfterLabel (t : Text) (i labLen : Nat) : Option RawMatch :=
  match t.get? (i + labLen) with
  | some c =>
    if pwSepChar c then
      if 6 ≤ pwCapLen t (pwCapStart t (i + labLen + 1)) then
        some ⟨i,
          pwCapStart t (i + labLen + 1) + pwCapLen t (pwCapStart t (i + labLen + 1)),
          some (pwCapStart t (i + labLen + 1),
            pwCapStart t (i + labLen + 1) + pwCapLen t (pwCapStart t (i + labLen + 1)))⟩
      else none
    else none
  | none => none

/-- The password rule tried at position i (labels in priority order, each
with its full continuation, as the alternation backtracks). -/
def passwordMatchAt (t : Text) (i : Nat) : Option RawMatch :=
  pwLabels.findSome? (fun lab =>
    if litAtCI t i lab then pwAfterLabel t i lab.length else none)

/-- Context keywords of _validate_password. -/
def pwContextKeywords : List Text :=
  ["密码".data, "口令".data, "password".data, "pwd".data]

/-- _validate_password: context keyword boost, else 90. -/
def validatePassword (rm : RawMatch) (t : Text) : Nat :=
  if anyKeyword pwContextKeywords (getContextText t rm.s rm.e 20) = true then 100
  else 90

/- ---------------------------------------------------------------------
credit_card:  (?<!\d)(?:\d{4}[\s-]?){3,4}\d{0,4}(?!\d)
--------------------------------------------------------------------- -/

/-- The separator class [\s-] at position p. -/
def ccSepAt (t : Text) (p : Nat) : Bool :=
  match t.get? p with
  | some c => pyIsSpace c || c == '-'
  | none => false

/-- The greedy tail \d{0,4}(?!\d) at position p: the engine tries 4 digits
first and backtracks down to 0, each time checking the lookahead. -/
def ccTail (t : Text) (p : Nat) : Option Nat :=
  [4, 3, 2, 1, 0].findSome? (fun k =>
    if digitsRun t p k && noDigitAt t (p + k) then some (p + k) else none)

/-- Depth-first continuation of (?:\d{4}[\s-]?){3,4}\d{0,4}(?!\d) with
r repetitions still allowed (the counted loop is greedy: a further
repetition, with its greedy optional separator, is tried before exiting;
exiting is only allowed once at least 3 repetitions were consumed,
i.e. when r ≤ 1 remain). -/
def ccFromReps (t : Text) : Nat → Nat → Option Nat
  | p, 0 => ccTail t p
  | p, r + 1 =>
    (if digitsRun t p 4 then
      (if ccSepAt t (p + 4) then ccFromReps t (p + 5) r else none)
      <|> ccFromReps t (p + 4) r
     else none)
    <|> (if r = 0 then ccTail t p else none)

/-- The credit_card rule tried at position i. -/
def ccMatchAt (t : Text) (i : Nat) : Option RawMatch :=
  if noDigitBefore t i then (ccFromReps t i 4).map (fun e => ⟨i, e, none⟩)
  else none

/-- card.replace(' ', '').replace('-', '') of _validate_credit_card. -/
def stripCard (v : Text) : Text := v.filter (fun c => !(c == ' ' || c == '-'))

/-- re.match(r'^\d{16,19}$', card): the length re-check of _validate_credit_card. -/
def ccFormatOk (card : Text) : Bool :=
  card.all (fun c => c.isDigit) && decide (16 ≤ card.length) && decide (card.length ≤ 19)

/-- One step of the Luhn doubling: double and subtract 9 when above 9. -/
def luhnDouble (d : Nat) : Nat := if 9 < 2 * d then 2 * d - 9 else 2 * d

/-- The Luhn sum of _validate_credit_card: every second digit from the
right is doubled (subtracting 9 when the double exceeds 9), then all
digits are summed. -/
def luhnSum (ds : List Nat) : Nat :=
  ((ds.reverse.enum).map (fun jd => if jd.1 % 2 = 1 then luhnDouble jd.2 else jd.2)).sum

/-- Context keywords of _validate_credit_card. -/
def ccKeywords : List Text :=
  ["银行卡".data, "信用卡".data, "储蓄卡".data, "卡号".data, "账号".data]

/-- _validate_credit_card: strip separators, 16-19 digit re-check (fail
gives 0 before any boost), context keyword boost, Luhn checksum, else 80. -/
def validateCreditCard (rm : RawMatch) (t : Text) : Nat :=
  if ¬ ccFormatOk (stripCard (slice t rm.s rm.e)) = true then 0
  else if anyKeyword ccKeywords (getContextText t rm.s rm.e 20) = true then 100
  else if luhnSum ((stripCard (slice t rm.s rm.e)).map charDigit) % 10 ≠ 0 then 0
  else 80

/- ---------------------------------------------------------------------
landline:  (?<!\d)(?:0\d{2,3}[-\s])?(?:[2-9]\d{6,7})(?!\d)
--------------------------------------------------------------------- -/

/-- The main part [2-9]\d{6,7}(?!\d) at position p (greedy: 7 digits are
tried before 6). -/
def llMainFrom (t : Text) (p : Nat) : Option Nat :=
  if chInRange (t.get? p) '2' '9' then
    [7, 6].findSome? (fun n =>
      if digitsRun t (p + 1) n && noDigitAt t (p + 1 + n) then some (p + 1 + n) else none)
  else none

/-- The separator class [-\s] at position p. -/
def llSepAt (t : Text) (p : Nat) : Bool :=
  match t.get? p with
  | some c => c == '-' || pyIsSpace c
  | none => false

/-- The landline rule tried at position i: the greedy optional area code
0\d{2,3}[-\s] is tried first (3 area digits before 2), then the bare number. -/
def landlineMatchAt (t : Text) (i : Nat) : Option RawMatch :=
  if noDigitBefore t i then
    ((if t.get? i == some '0' then
        [3, 2].findSome? (fun n =>
          if digitsRun t (i + 1) n && llSepAt t (i + 1 + n)
          then llMainFrom t (i + 1 + n + 1) else none)
      else none)
     <|> llMainFrom t i).map (fun e => ⟨i, e, none⟩)
  else none

/-- Head of v is a [-\s] separator. -/
def sepHead (v : Text) : Bool :=
  match v with
  | c :: _ => c == '-' || pyIsSpace c
  | [] => false

/-- v matches ^[2-9]\d{6,7}$ (the area-code-free form). -/
def llMainFull (v : Text) : Bool :=
  match v with
  | c :: rest =>
    decide ('2' ≤ c) && decide (c ≤ '9') && rest.all (fun d => d.isDigit)
      && (rest.length == 6 || rest.length == 7)
  | [] => false

/-- re.match(r'^(?:0\d{2,3}[-\s])?[2-9]\d{6,7}$', v): the format re-check
of _validate_landline. -/
def llFull (v : Text) : Bool :=
  llMainFull v ||
  (match v with
   | '0' :: rest =>
     ((rest.take 3).length == 3 && (rest.take 3).all (fun d => d.isDigit)
        && sepHead (rest.drop 3) && llMainFull ((rest.drop 3).drop 1))
     || ((rest.take 2).length == 2 && (rest.take 2).all (fun d => d.isDigit)
        && sepHead (rest.drop 2) && llMainFull ((rest.drop 2).drop 1))
   | _ => false)

/-- Context keywords of _validate_landline. -/
def llKeywords : List Text :=
  ["电话".data, "座机".data, "分机".data, "传真".data, "客服".data]

/-- _validate_landline: format re-check, context keyword boost, else 70. -/
def validateLandline (rm : RawMatch) (t : Text) : Nat :=
  if ¬ llFull (slice t rm.s rm.e) = true then 0
  else if anyKeyword llKeywords (getContextText t rm.s rm.e 20) = true then 100
  else 70

/- ---------------------------------------------------------------------
id_card:
(?<!\d)[1-9]\d{5}(?:19|20)\d{2}(?:0[1-9]|1[0-2])(?:0[1-9]|[12]\d|3[01])\d{3}[\dXx](?!\d)
--------------------------------------------------------------------- -/

/-- Character of v at index k (padded with a NUL character past the end). -/
def chAt (v : Text) (k : Nat) : Char := (v.get? k).getD (Char.ofNat 0)

/-- The 18-character shape of an id card number.  Every alternative of the
pattern has fixed width, so matching it is deterministic; this same shape is
the anchored format re-check re.match(^...$) of _validate_id_card. -/
def idCardShape (v : Text) : Bool :=
  v.length == 18
  && chInRange (v.get? 0) '1' '9'
  && (List.range 5).all (fun k => chDigit (v.get? (1 + k)))
  && (litAt v 6 ['1', '9'] || litAt v 6 ['2', '0'])
  && chDigit (v.get? 8) && chDigit (v.get? 9)
  && ((v.get? 10 == some '0' && chInRange (v.get? 11) '1' '9')
      || (v.get? 10 == some '1' && chInRange (v.get? 11) '0' '2'))
  && ((v.get? 12 == some '0' && chInRange (v.get? 13) '1' '9')
      || (chInRange (v.get? 12) '1' '2' && chDigit (v.get? 13))
      || (v.get? 12 == some '3' && chInRange (v.get? 13) '0' '1'))
  && chDigit (v.get? 14) && chDigit (v.get? 15) && chDigit (v.get? 16)
  && (chDigit (v.get? 17) || v.get? 17 == some 'X' || v.get? 17 == some 'x')

/-- The id_card rule tried at position i. -/
def idCardMatchAt (t : Text) (i : Nat) : Option RawMatch :=
  if noDigitBefore t i && idCardShape (slice t i (i + 18)) && noDigitAt t (i + 18)
  then some ⟨i, i + 18, none⟩ else none

/-- Context keywords of _validate_id_card. -/
def idKeywords : List Text :=
  ["身份证".data, "证件".data, "号码".data, "身份".data, "证号".data]

/-- _validate_id_card: format re-check, context keyword boost, birth date
range check (year 1900-2100, month 1-12, day 1-31), else 90. -/
def validateIdCard (rm : RawMatch) (t : Text) : Nat :=
  if ¬ idCardShape (slice t rm.s rm.e) = true then 0
  else if anyKeyword idKeywords (getContextText t rm.s rm.e 20) = true then 100
  else
    let v := slice t rm.s rm.e
    let year := natOfDigits [chAt v 6, chAt v 7, chAt v 8, chAt v 9]
    let month := natOfDigits [chAt v 10, chAt v 11]
    let day := natOfDigits [chAt v 12, chAt v 13]
    if year < 1900 ∨ 2100 < year ∨ month < 1 ∨ 12 < month ∨ day < 1 ∨ 31 < day then 0
    else 90

/- ---------------------------------------------------------------------
address: whitelisted city, optional 市|省|特别行政区, [一-龥]{1,3},
区|县|市, [一-龥]{2,10}, 路|街|道|巷|胡同, [一-龥\d]{1,10},
optional 号, optional ([一-龥\d]{1,10}(?:号楼|单元|室|号))
--------------------------------------------------------------------- -/

/-- The CJK class [一-龥]. -/
def cjkChar (c : Char) : Bool :=
  decide (0x4e00 ≤ c.toNat) && decide (c.toNat ≤ 0x9fa5)

/-- The class [一-龥\d]. -/
def cjkOrDigit (c : Char) : Bool := cjkChar c || c.isDigit

/-- Candidate lengths for a greedy counted class repetition p{lo,hi} at
position i, in backtracking priority order (longest first). -/
def repCands (p : Char → Bool) (t : Text) (i lo hi : Nat) : List Nat :=
  let r := min hi (runLen p t i)
  (List.range (r + 1 - lo)).map (fun k => r - k)

/-- The whitelisted city names, in the pattern's alternation order. -/
def cities : List Text :=
  ["北京".data, "上海".data, "天津".data, "重庆".data, "广州".data, "深圳".data,
   "杭州".data, "南京".data, "武汉".data, "成都".data, "西安".data, "沈阳".data,
   "大连".data, "青岛".data, "济南".data, "郑州".data, "长沙".data, "福州".data,
   "厦门".data, "哈尔滨".data, "长春".data, "太原".data, "石家庄".data,
   "呼和浩特".data, "南宁".data, "银川".data, "乌鲁木齐".data, "拉萨".data,
   "西宁".data, "兰州".data, "贵阳".data, "昆明".data, "南昌".data, "合肥".data,
   "海口".data, "三亚".data, "香港".data, "澳门".data, "台北".data]

/-- Building/unit suffix literals 号楼|单元|室|号, in alternation order. -/
def addrUnitLits : List Text := ["号楼".data, "单元".data, "室".data, "号".data]

/-- Road qualifier literals 路|街|道|巷|胡同, in alternation order. -/
def addrRoadLits : List Text :=
  ["路".data, "街".data, "道".data, "巷".data, "胡同".data]

/-- District qualifier literals 区|县|市, in alternation order. -/
def addrDistrictLits : List Text := ["区".data, "县".data, "市".data]

/-- City suffix literals 市|省|特别行政区, in alternation order. -/
def addrCitySuffixLits : List Text := ["市".data, "省".data, "特别行政区".data]

/-- The greedy optional trailing group (?:[一-龥\d]{1,10}(?:号楼|单元|室|号))?
at position p: the group (longest repetition first, then the unit literal)
is tried before the empty alternative. -/
def addrTail2 (t : Text) (p : Nat) : Option Nat :=
  ((repCands cjkOrDigit t p 1 10).findSome? (fun n =>
    addrUnitLits.findSome? (fun lit =>
      if litAt t (p + n) lit then some (p + n + lit.length) else none)))
  <|> some p

/-- Continuation after the road qualifier:
[一-龥\d]{1,10} 号? then the optional trailing group. -/
def addrAfterRoad (t : Text) (p : Nat) : Option Nat :=
  (repCands cjkOrDigit t p 1 10).findSome? (fun n =>
    (if t.get? (p + n) == some '号' then addrTail2 t (p + n + 1) else none)
    <|> addrTail2 t (p + n))

/-- Continuation after the district qualifier:
[一-龥]{2,10}(路|街|道|巷|胡同) then the rest. -/
def addrAfterDistrict (t : Text) (p : Nat) : Option Nat :=
  (repCands cjkChar t p 2 10).findSome? (fun n =>
    addrRoadLits.findSome? (fun lit =>
      if litAt t (p + n) lit then addrAfterRoad t (p + n + lit.length) else none))

/-- Continuation after the city (and its optional suffix):
[一-龥]{1,3}(区|县|市) then the rest. -/
def addrAfterCity (t : Text) (p : Nat) : Option Nat :=
  (repCands cjkChar t p 1 3).findSome? (fun n =>
    addrDistrictLits.findSome? (fun lit =>
      if litAt t (p + n) lit then addrAfterDistrict t (p + n + lit.length) else none))

/-- The address rule tried at position i. -/
def addressMatchAt (t : Text) (i : Nat) : Option RawMatch :=
  (cities.findSome? (fun city =>
    if litAt t i city then
      ((addrCitySuffixLits.findSome? (fun lit =>
          if litAt t (i + city.length) lit
          then addrAfterCity t (i + city.length + lit.length) else none))
       <|> addrAfterCity t (i + city.length))
    else none)).map (fun e => ⟨i, e, none⟩)

/-- Context keywords of _validate_address. -/
def addressKeywords : List Text :=
  ["地址".data, "住址".data, "家庭".data, "位于".data, "住在".data]

/-- _validate_address: context keyword boost, length-at-least-10 check, else 80. -/
def validateAddress (rm : RawMatch) (t : Text) : Nat :=
  if anyKeyword addressKeywords (getContextText t rm.s rm.e 20) = true then 100
  else if (slice t rm.s rm.e).length < 10 then 0
  else 80

/- ---------------------------------------------------------------------
email:  [a-zA-Z0-9._%+-]+@[a-zA-Z0-9.-]+\.[a-zA-Z]{2,}
--------------------------------------------------------------------- -/

/-- The local-part class [a-zA-Z0-9._%+-]. -/
def emailLocalChar (c : Char) : Bool :=
  c.isAlphanum || c == '.' || c == '_' || c == '%' || c == '+' || c == '-'

/-- The domain class [a-zA-Z0-9.-]. -/
def emailDomainChar (c : Char) : Bool := c.isAlphanum || c == '.' || c == '-'

/-- The class [a-zA-Z]. -/
def asciiLetter (c : Char) : Bool := c.isAlpha

/-- The email rule tried at position i.  The local part is forced to the
maximal run ('@' is outside its class); the greedy domain run backtracks
from its maximal extent to place the literal dot, after which the top-level
label takes the maximal letter run (at least 2 letters). -/
def emailMatchAt (t : Text) (i : Nat) : Option RawMatch :=
  let L := runLen emailLocalChar t i
  if L == 0 then none
  else if t.get? (i + L) == some '@' then
    let p := i + L + 1
    let D := runLen emailDomainChar t p
    ((List.range (D + 1)).reverse.findSome? (fun k =>
      if k == 0 then none
      else if t.get? (p + k) == some '.' then
        let m := runLen asciiLetter t (p + k + 1)
        if 2 ≤ m then some ⟨i, p + k + 1 + m, none⟩ else none
      else none))
  else none

/-- re.match with the anchored email pattern ^...$: the format re-check of
_validate_email (the local run is forced maximal; some dot split of the
remainder must consume the whole string). -/
def emailFull (v : Text) : Bool :=
  let L := runLen emailLocalChar v 0
  decide (1 ≤ L) && v.get? L == some '@' &&
  (let r := v.drop (L + 1)
   (List.range r.length).any (fun k =>
     decide (1 ≤ k) && (r.take k).all emailDomainChar && r.get? k == some '.' &&
     decide (2 ≤ (r.drop (k + 1)).length) && (r.drop (k + 1)).all asciiLetter))

/-- Context keywords of _validate_email (the keyword search of the source
is case sensitive, hence the literal Email). -/
def emailKeywords : List Text :=
  ["邮箱".data, "邮件".data, "电子邮件".data, "Email".data, "联系".data]

/-- re.match(r'^(test|example|sample)@', email.lower()). -/
def emailTestLocal (v : Text) : Bool :=
  ("test@".data).isPrefixOf v || ("example@".data).isPrefixOf v
    || ("sample@".data).isPrefixOf v

/-- _validate_email: format re-check, context keyword boost, test-mailbox
demotion to 30, else 80. -/
def validateEmail (rm : RawMatch) (t : Text) : Nat :=
  if ¬ emailFull (slice t rm.s rm.e) = true then 0
  else if anyKeyword emailKeywords (getContextText t rm.s rm.e 20) = true then 100
  else if emailTestLocal ((slice t rm.s rm.e).map Char.toLower) then 30
  else 80

/- ---------------------------------------------------------------------
ip_address:
\b(?:(?:25[0-5]|2[0-4][0-9]|[01]?[0-9][0-9]?)\.){3}(?:25[0-5]|2[0-4][0-9]|[01]?[0-9][0-9]?)\b
--------------------------------------------------------------------- -/

/-- The word class \w, modelled as ASCII alphanumerics, the underscore and
the CJK ideographs (Python treats unicode letters as word characters). -/
def pyIsWord (c : Char) : Bool :=
  c.isAlphanum || c == '_' || (decide (0x4e00 ≤ c.toNat) && decide (c.toNat ≤ 0x9fa5))

/-- No word character right before position i (with a word character at i,
this is the boundary \b). -/
def noWordBefore (t : Text) (i : Nat) : Bool :=
  match i with
  | 0 => true
  | j + 1 =>
    match t.get? j with
    | some c => !pyIsWord c
    | none => true

/-- No word character at position p (with a word character at p-1, this is
the boundary \b). -/
def noWordAt (t : Text) (p : Nat) : Bool :=
  match t.get? p with
  | some c => !pyIsWord c
  | none => true

/-- Candidate end positions of one octet 25[0-5]|2[0-4][0-9]|[01]?[0-9][0-9]?
at position p, in backtracking priority order. -/
def ipOctetEnds (t : Text) (p : Nat) : List Nat :=
  (if t.get? p == some '2' && t.get? (p + 1) == some '5' && chInRange (t.get? (p + 2)) '0' '5'
   then [p + 3] else [])
  ++ (if t.get? p == some '2' && chInRange (t.get? (p + 1)) '0' '4' && chDigit (t.get? (p + 2))
      then [p + 3] else [])
  ++ (if chInRange (t.get? p) '0' '1' && chDigit (t.get? (p + 1)) && chDigit (t.get? (p + 2))
      then [p + 3] else [])
  ++ (if chInRange (t.get? p) '0' '1' && chDigit (t.get? (p + 1)) then [p + 2] else [])
  ++ (if chDigit (t.get? p) && chDigit (t.get? (p + 1)) then [p + 2] else [])
  ++ (if chDigit (t.get? p) then [p + 1] else [])

/-- Depth-first continuation of the ip rule with k octets still to match
(each of the first three followed by a literal dot, the last by \b). -/
def ipFromOctets (t : Text) : Nat → Nat → Option Nat
  | _, 0 => none
  | p, 1 => (ipOctetEnds t p).findSome? (fun e => if noWordAt t e then some e else none)
  | p, k + 2 =>
    (ipOctetEnds t p).findSome? (fun e =>
      if t.get? e == some '.' then ipFromOctets t (e + 1) (k + 1) else none)

/-- The ip_address rule tried at position i (the leading \b: an octet starts
with a digit, so the previous character must not be a word character). -/
def ipMatchAt (t : Text) (i : Nat) : Option RawMatch :=
  if noWordBefore t i then (ipFromOctets t i 4).map (fun e => ⟨i, e, none⟩)
  else none

/-- Python str.split('.'). -/
def splitDots : Text → List Text
  | [] => [[]]
  | c :: rest =>
    match splitDots rest with
    | [] => [[c]]
    | h :: ts => if c = '.' then [] :: h :: ts else (c :: h) :: ts

/-- Context keywords of _validate_ip_address. -/
def ipKeywords : List Text :=
  ["IP".data, "地址".data, "服务器".data, "网络".data, "主机".data]

/-- Special addresses demoted to 50 by _validate_ip_address. -/
def ipSpecial : List Text :=
  ["127.0.0.1".data, "0.0.0.0".data, "255.255.255.255".data]

/-- _validate_ip_address: four dot-separated all-digit parts each at most
255, context keyword boost, special-address demotion, else 70. -/
def validateIp (rm : RawMatch) (t : Text) : Nat :=
  let v := slice t rm.s rm.e
  let parts := splitDots v
  if ¬ parts.length = 4 then 0
  else if parts.any (fun part =>
      part.isEmpty || !part.all (fun c => c.isDigit) || decide (255 < natOfDigits part)) then 0
  else if anyKeyword ipKeywords (getContextText t rm.s rm.e 20) = true then 100
  else if v ∈ ipSpecial then 50
  else 70

/- ---------------------------------------------------------------------
The pattern registry, the detector state and detect_sensitive_info
--------------------------------------------------------------------- -/

/-- One entry of self.patterns: display name, description, matching rule
and validator. -/
structure PatternEntry where
  name : String
  description : String
  matchAt : Text → Nat → Option RawMatch
  validator : RawMatch → Text → Nat

/-- The phone registry entry. -/
def phoneEntry : PatternEntry :=
  ⟨"手机号码", "11位数字，以1开头，第二位是3-9，可能带有+86前缀", phoneMatchAt, validatePhone⟩

/-- The landline registry entry. -/
def landlineEntry : PatternEntry :=
  ⟨"座机号码", "区号(可选)+7-8位数字", landlineMatchAt, validateLandline⟩

/-- The id_card registry entry. -/
def idCardEntry : PatternEntry :=
  ⟨"身份证号", "18位数字，最后一位可能是X", idCardMatchAt, validateIdCard⟩

/-- The address registry entry. -/
def addressEntry : PatternEntry :=
  ⟨"家庭住址", "包含省市区县、路街道等信息的地址", addressMatchAt, validateAddress⟩

/-- The email registry entry. -/
def emailEntry : PatternEntry :=
  ⟨"电子邮箱", "标准电子邮箱格式", emailMatchAt, validateEmail⟩

/-- The password registry entry. -/
def passwordEntry : PatternEntry :=
  ⟨"密码", "密码标识后跟随的6-20位字符", passwordMatchAt, validatePassword⟩

/-- The credit_card registry entry. -/
def creditCardEntry : PatternEntry :=
  ⟨"银行卡号", "16-19位数字，可能有空格分隔", ccMatchAt, validateCreditCard⟩

/-- The ip_address registry entry. -/
def ipEntry : PatternEntry :=
  ⟨"IP地址", "标准IPv4地址格式", ipMatchAt, validateIp⟩

/-- self.patterns: the pattern registry, in the source's insertion order. -/
def patterns : List (String × PatternEntry) :=
  [("phone", phoneEntry), ("landline", landlineEntry), ("id_card", idCardEntry),
   ("address", addressEntry), ("email", emailEntry), ("password", passwordEntry),
   ("credit_card", creditCardEntry), ("ip_address", ipEntry)]

/-- The registered type identifiers, in registry order. -/
def patternIds : List String := patterns.map (fun p => p.1)

/-- type_id in self.patterns. -/
def isRegistered (tid : String) : Bool := patterns.any (fun p => p.1 == tid)

/-- self.patterns[type_id], when registered. -/
def lookupPattern (tid : String) : Option PatternEntry :=
  (patterns.find? (fun p => p.1 == tid)).map (fun p => p.2)

/-- The mutable session state of a SensitiveInfoDetector: the enabled type
identifiers (a Python set, modelled as a list) and the confidence threshold. -/
structure Detector where
  enabled_types : List String
  confidence_threshold : Nat

/-- The state set up by SensitiveInfoDetector.__init__: all types enabled,
threshold 50. -/
def defaultDetector : Detector := ⟨patternIds, 50⟩

/-- set_enabled_types: validates every id (raising ValueError at the first
unknown one) and replaces the enabled set. -/
def set_enabled_types (d : Detector) (type_ids : List String) : Except String Detector :=
  match type_ids.find? (fun tid => !isRegistered tid) with
  | some bad => .error ("无效的敏感信息类型ID: " ++ bad)
  | none => .ok ⟨type_ids, d.confidence_threshold⟩

/-- set_confidence_threshold: rejects values outside [0,100] (thresholds are
Python ints; the stored value is the non-negative accepted one). -/
def set_confidence_threshold (d : Detector) (threshold : Int) : Except String Detector :=
  if threshold < 0 ∨ 100 < threshold then .error "置信度阈值必须在0-100之间"
  else .ok ⟨d.enabled_types, threshold.toNat⟩

/-- One reported match, as stored in the result mapping by
detect_sensitive_info (the Python dict keys value/start/end/context/confidence;
the end offset is the field stop). -/
structure MatchEntry where
  value : Text
  start : Nat
  stop : Nat
  context : Text
  confidence : Nat
deriving DecidableEq

/-- Building the stored match: for the password type the inner capture's
value and offsets are used, otherwise the whole match. -/
def entryOf (tid : String) (t : Text) (rm : RawMatch) (conf : Nat) : MatchEntry :=
  if tid = "password" ∧ rm.grp.isSome then
    let p := rm.grp.getD (rm.s, rm.e)
    ⟨slice t p.1 p.2, p.1, p.2, getContext t p.1 p.2 20, conf⟩
  else
    ⟨slice t rm.s rm.e, rm.s, rm.e, getContext t rm.s rm.e 20, conf⟩

/-- Scanning one type: run the matcher over the text, score each raw match
with the type's validator, and keep those reaching the threshold (an
unregistered id contributes nothing, as the source's loop skips it). -/
def scanType (thr : Nat) (t : Text) (tid : String) : List MatchEntry :=
  match lookupPattern tid with
  | none => []
  | some pe =>
    (finditer pe.matchAt t).filterMap (fun rm =>
      if pe.validator rm t < thr then none
      else some (entryOf tid t rm (pe.validator rm t)))

/-- Appending accepted matches under a type key, as defaultdict(list) does:
the first existing entry with the key is extended, otherwise a new key is
appended at the end. -/
def extendAssoc : List (String × List MatchEntry) → String → List MatchEntry →
    List (String × List MatchEntry)
  | [], tid, ms => [(tid, ms)]
  | (k, v) :: rest, tid, ms =>
    if k = tid then (k, v ++ ms) :: rest else (k, v) :: extendAssoc rest tid ms

/-- The aggregation loop of detect_sensitive_info over the requested type
identifiers: a type with no accepted match never touches the result mapping. -/
def detectLoop (thr : Nat) (t : Text) : List String → List (String × List MatchEntry) →
    List (String × List MatchEntry)
  | [], acc => acc
  | tid :: rest, acc =>
    detectLoop thr t rest
      (if (scanType thr t tid).isEmpty then acc else extendAssoc acc tid (scanType thr t tid))

/-- The explicit-type-list branch of detect_sensitive_info: every requested
id is validated (ValueError at the first unknown one) before scanning. -/
def detectValidated (thr : Nat) (t : Text) (tys : List String) :
    Except String (List (String × List MatchEntry)) :=
  match tys.find? (fun tid => !isRegistered tid) with
  | some bad => .error ("无效的敏感信息类型ID: " ++ bad)
  | none => .ok (detectLoop thr t tys [])

/-- detect_sensitive_info: empty-or-missing-text short circuit, requested
type validation, then per-type scan/validate/filter/aggregate.  The result
is the insertion-ordered mapping from type id to its accepted matches. -/
def detect_sensitive_info (d : Detector) (text : Option Text)
    (info_types : Option (List String)) :
    Except String (List (String × List MatchEntry)) :=
  match text with
  | none => .ok []
  | some t =>
    if pyStrip t = [] then .ok []
    else
      match info_types with
      | none => .ok (detectLoop d.confidence_threshold t d.enabled_types [])
      | some tys => detectValidated d.confidence_threshold t tys

/-- Number of matches a result mapping holds for a type id (0 when the id
is absent; the first binding of the id is the one the mapping holds). -/
def countIn : List (String × List MatchEntry) → String → Nat
  | [], _ => 0
  | (k, v) :: rest, tid => if k = tid then v.length else countIn rest tid

/- ---------------------------------------------------------------------
Helper lemmas
--------------------------------------------------------------------- -/

/-- A list's takeWhile portion is no longer than the list. -/
theorem length_takeWhile_le (p : Char → Bool) :
    ∀ (l : Text), (l.takeWhile p).length ≤ l.length := by
  intro l
  induction l with
  | nil => simp
  | cons a l ih =>
    rw [List.takeWhile_cons]
    by_cases h : p a = true
    · rw [if_pos h]
      simpa using ih
    · rw [if_neg h]
      simp

/-- A take within the takeWhile portion satisfies the predicate throughout. -/
theorem all_take_of_le_takeWhile (p : Char → Bool) :
    ∀ (l : Text) (n : Nat), n ≤ (l.takeWhile p).length → (l.take n).all p = true := by
  intro l
  induction l with
  | nil => intro n _; simp
  | cons a l ih =>
    intro n h
    rw [List.takeWhile_cons] at h
    by_cases hpa : p a = true
    · rw [if_pos hpa] at h
      cases n with
      | zero => simp
      | succ n =>
        simp only [List.take_succ_cons, List.all_cons, hpa, Bool.true_and]
        exact ih n (by simpa using h)
    · rw [if_neg hpa] at h
      simp only [List.length_nil, Nat.le_zero] at h
      subst h
      simp

/-- A successful findSome? comes from some element of the list. -/
theorem findSome?_some_ex {α β : Type} {f : α → Option β} :
    ∀ {l : List α} {b : β}, l.findSome? f = some b → ∃ a ∈ l, f a = some b := by
  intro l
  induction l with
  | nil => intro b h; simp [List.findSome?] at h
  | cons a l ih =>
    intro b h
    rw [List.findSome?_cons] at h
    cases hfa : f a with
    | some c =>
      rw [hfa] at h
      exact ⟨a, List.mem_cons_self a l, by rw [hfa]; exact h⟩
    | none =>
      rw [hfa] at h
      obtain ⟨x, hx, hfx⟩ := ih h
      exact ⟨x, List.mem_cons_of_mem _ hx, hfx⟩

/-- Every match produced by the finditer scan comes from the pattern
succeeding at some position. -/
theorem mem_finditerAux {f : Text → Nat → Option RawMatch} {t : Text} :
    ∀ {fuel i : Nat} {rm : RawMatch}, rm ∈ finditerAux f t fuel i → ∃ j, f t j = some rm := by
  intro fuel
  induction fuel with
  | zero => intro i rm h; simp [finditerAux] at h
  | succ fuel ih =>
    intro i rm h
    unfold finditerAux at h
    by_cases hlen : t.length < i
    · rw [if_pos hlen] at h; simp at h
    · rw [if_neg hlen] at h
      cases hf : f t i with
      | some r =>
        rw [hf] at h
        rcases List.mem_cons.mp h with h1 | h1
        · exact ⟨i, by rw [hf, h1]⟩
        · exact ih h1
      | none =>
        rw [hf] at h
        exact ih h

/-- Every match in the finditer output comes from the pattern succeeding at
some position. -/
theorem mem_finditer {f : Text → Nat → Option RawMatch} {t : Text} {rm : RawMatch}
    (h : rm ∈ finditer f t) : ∃ j, f t j = some rm :=
  mem_finditerAux h

/-- The stored confidence of a built entry is the validator's score. -/
theorem entryOf_confidence (tid : String) (t : Text) (rm : RawMatch) (conf : Nat) :
    (entryOf tid t rm conf).confidence = conf := by
  unfold entryOf
  by_cases h : tid = "password" ∧ rm.grp.isSome
  · rw [if_pos h]
  · rw [if_neg h]

/-- For a type other than password the entry stores the whole match. -/
theorem entryOf_ne_password {tid : String} (h : ¬ tid = "password") (t : Text)
    (rm : RawMatch) (conf : Nat) :
    entryOf tid t rm conf =
      ⟨slice t rm.s rm.e, rm.s, rm.e, getContext t rm.s rm.e 20, conf⟩ := by
  unfold entryOf
  rw [if_neg (fun hc => h hc.1)]

/-- For the password type with a capture the entry stores the capture. -/
theorem entryOf_password_grp {t : Text} {rm : RawMatch} {gs ge : Nat}
    (hg : rm.grp = some (gs, ge)) (conf : Nat) :
    entryOf "password" t rm conf =
      ⟨slice t gs ge, gs, ge, getContext t gs ge 20, conf⟩ := by
  unfold entryOf
  rw [if_pos ⟨rfl, by rw [hg]; rfl⟩, hg]
  rfl

/-- Every entry scanType keeps comes from a raw match of the type's rule
whose validator score reaches the threshold. -/
theorem mem_scanType {thr : Nat} {t : Text} {tid : String} {m : MatchEntry}
    (h : m ∈ scanType thr t tid) :
    ∃ pe rm, lookupPattern tid = some pe ∧ rm ∈ finditer pe.matchAt t ∧
      thr ≤ pe.validator rm t ∧ m = entryOf tid t rm (pe.validator rm t) := by
  unfold scanType at h
  cases hlk : lookupPattern tid with
  | none => rw [hlk] at h; simp at h
  | some pe =>
    rw [hlk] at h
    obtain ⟨rm, hrm, hsome⟩ := List.mem_filterMap.mp h
    by_cases hc : pe.validator rm t < thr
    · rw [if_pos hc] at hsome; cases hsome
    · rw [if_neg hc] at hsome
      exact ⟨pe, rm, rfl, hrm, Nat.le_of_not_lt hc, (Option.some_inj.mp hsome).symm⟩

/-- Membership after a defaultdict append: either already present in the
accumulator, or among the freshly appended matches of the key. -/
theorem mem_extendAssoc {tid2 : String} {ms2 : List MatchEntry} :
    ∀ {acc : List (String × List MatchEntry)} {tid0 : String} {ms0 : List MatchEntry},
      (tid2, ms2) ∈ extendAssoc acc tid0 ms0 → ∀ m2 ∈ ms2,
        (∃ ms3, (tid2, ms3) ∈ acc ∧ m2 ∈ ms3) ∨ (tid2 = tid0 ∧ m2 ∈ ms0) := by
  intro acc
  induction acc with
  | nil =>
    intro tid0 ms0 h m2 hm2
    simp only [extendAssoc, List.mem_singleton, Prod.mk.injEq] at h
    exact Or.inr ⟨h.1, h.2 ▸ hm2⟩
  | cons kv rest ih =>
    intro tid0 ms0 h m2 hm2
    obtain ⟨k, v⟩ := kv
    unfold extendAssoc at h
    by_cases hk : k = tid0
    · rw [if_pos hk] at h
      rcases List.mem_cons.mp h with h1 | h1
      · have h2 : tid2 = k ∧ ms2 = v ++ ms0 := by
          simpa [Prod.mk.injEq] using h1
        obtain ⟨rfl, rfl⟩ := h2
        rcases List.mem_append.mp hm2 with h3 | h3
        · exact Or.inl ⟨v, List.mem_cons_self _ _, h3⟩
        · exact Or.inr ⟨hk, h3⟩
      · exact Or.inl ⟨ms2, List.mem_cons_of_mem _ h1, hm2⟩
    · rw [if_neg hk] at h
      rcases List.mem_cons.mp h with h1 | h1
      · have h2 : tid2 = k ∧ ms2 = v := by
          simpa [Prod.mk.injEq] using h1
        obtain ⟨rfl, rfl⟩ := h2
        exact Or.inl ⟨ms2, List.mem_cons_self _ _, hm2⟩
      · rcases ih h1 m2 hm2 with ⟨ms3, h3, h4⟩ | h3
        · exact Or.inl ⟨ms3, List.mem_cons_of_mem _ h3, h4⟩
        · exact Or.inr h3

/-- Every match in the aggregation loop's output under a key either was in
the accumulator or comes from that key's scan. -/
theorem mem_detectLoop {thr : Nat} {t : Text} {tid : String} {ms : List MatchEntry}
    {m : MatchEntry} :
    ∀ (tys : List String) (acc : List (String × List MatchEntry)),
      (∀ tid2 ms2, (tid2, ms2) ∈ acc → ∀ m2 ∈ ms2, m2 ∈ scanType thr t tid2) →
      (tid, ms) ∈ detectLoop thr t tys acc → m ∈ ms → m ∈ scanType thr t tid := by
  intro tys
  induction tys with
  | nil =>
    intro acc hacc h hm
    exact hacc _ _ h _ hm
  | cons tid0 rest ih =>
    intro acc hacc h hm
    unfold detectLoop at h
    refine ih _ ?_ h hm
    intro tid2 ms2 h2 m2 hm2
    by_cases he : (scanType thr t tid0).isEmpty
    · rw [if_pos he] at h2
      exact hacc _ _ h2 _ hm2
    · rw [if_neg he] at h2
      rcases mem_extendAssoc h2 m2 hm2 with ⟨ms3, h3, h4⟩ | ⟨h3, h4⟩
      · exact hacc _ _ h3 _ h4
      · rw [h3]; exact h4

/-- Unfolding equation of detect_sensitive_info on a present text. -/
theorem detect_some_eq (en : List String) (thr : Nat) (t : Text)
    (it : Option (List String)) :
    detect_sensitive_info ⟨en, thr⟩ (some t) it =
      if pyStrip t = [] then .ok []
      else
        match it with
        | none => .ok (detectLoop thr t en [])
        | some tys => detectValidated thr t tys := rfl

/-- Every match detect_sensitive_info reports under a type id comes from
that type's scan at the call's threshold. -/
theorem mem_detect {en : List String} {thr : Nat} {t : Text}
    {it : Option (List String)} {res : List (String × List MatchEntry)}
    {tid : String} {ms : List MatchEntry} {m : MatchEntry}
    (hd : detect_sensitive_info ⟨en, thr⟩ (some t) it = .ok res)
    (hms : (tid, ms) ∈ res) (hm : m ∈ ms) : m ∈ scanType thr t tid := by
  rw [detect_some_eq] at hd
  by_cases hstrip : pyStrip t = []
  · rw [if_pos hstrip] at hd
    injection hd with hd
    subst hd
    cases hms
  · rw [if_neg hstrip] at hd
    cases it with
    | none =>
      injection hd with hd
      subst hd
      exact mem_detectLoop en [] (by intro tid2 ms2 h; cases h) hms hm
    | some tys =>
      replace hd : detectValidated thr t tys = Except.ok res := hd
      unfold detectValidated at hd
      cases hf : tys.find? (fun x => !isRegistered x) with
      | some bad => rw [hf] at hd; cases hd
      | none =>
        rw [hf] at hd
        injection hd with hd
        subst hd
        exact mem_detectLoop tys [] (by intro tid2 ms2 h; cases h) hms hm

/-- Extending a key's matches raises that key's count by the number of
appended matches. -/
theorem countIn_extendAssoc_self :
    ∀ (acc : List (String × List MatchEntry)) (tid : String) (ms : List MatchEntry),
      countIn (extendAssoc acc tid ms) tid = countIn acc tid + ms.length := by
  intro acc
  induction acc with
  | nil =>
    intro tid ms
    simp [extendAssoc, countIn]
  | cons kv rest ih =>
    intro tid ms
    obtain ⟨k, v⟩ := kv
    unfold extendAssoc
    by_cases hk : k = tid
    · rw [if_pos hk]
      simp [countIn, hk]
    · rw [if_neg hk]
      simp only [countIn, if_neg hk]
      exact ih tid ms

/-- Extending one key leaves every other key's count unchanged. -/
theorem countIn_extendAssoc_ne {tid tid2 : String} (hne : ¬ tid = tid2) :
    ∀ (acc : List (String × List MatchEntry)) (ms : List MatchEntry),
      countIn (extendAssoc acc tid ms) tid2 = countIn acc tid2 := by
  intro acc
  induction acc with
  | nil =>
    intro ms
    simp [extendAssoc, countIn, hne]
  | cons kv rest ih =>
    intro ms
    obtain ⟨k, v⟩ := kv
    unfold extendAssoc
    by_cases hk : k = tid
    · rw [if_pos hk]
      have hk2 : ¬ k = tid2 := by rw [hk]; exact hne
      simp [countIn, hk2]
    · rw [if_neg hk]
      by_cases hk2 : k = tid2
      · simp [countIn, hk2]
      · simp only [countIn, if_neg hk2]
        exact ih ms

/-- One aggregation step changes a key's count by the scanned batch exactly
when the step's type is that key. -/
theorem countIn_step (acc : List (String × List MatchEntry)) (tid0 : String)
    (ms : List MatchEntry) (tid : String) :
    countIn (if ms.isEmpty then acc else extendAssoc acc tid0 ms) tid =
      countIn acc tid + (if tid0 = tid then ms.length else 0) := by
  by_cases he : ms.isEmpty
  · rw [if_pos he]
    have : ms.length = 0 := by
      rw [List.isEmpty_iff.mp he]; rfl
    rw [this]
    by_cases h0 : tid0 = tid <;> simp [h0]
  · rw [if_neg he]
    by_cases h0 : tid0 = tid
    · rw [if_pos h0, h0, countIn_extendAssoc_self]
    · rw [if_neg h0, countIn_extendAssoc_ne h0]
      simp

/-- Dropping entries from a filterMap whose keep-condition is pointwise
stronger can only shorten the output. -/
theorem length_filterMap_mono {α β : Type} (l : List α) (f g : α → Option β)
    (h : ∀ x b, g x = some b → ∃ c, f x = some c) :
    (l.filterMap g).length ≤ (l.filterMap f).length := by
  induction l with
  | nil => simp
  | cons a l ih =>
    rw [List.filterMap_cons, List.filterMap_cons]
    cases hg : g a with
    | none =>
      cases hf : f a with
      | none => exact ih
      | some c => simpa using Nat.le_succ_of_le ih
    | some b =>
      obtain ⟨c, hf⟩ := h a b hg
      rw [hf]
      simpa using Nat.succ_le_succ ih

/-- Raising the threshold can only shorten a type's scanned batch. -/
theorem scanType_length_mono {t1 t2 : Nat} (h : t1 ≤ t2) (t : Text) (tid : String) :
    (scanType t2 t tid).length ≤ (scanType t1 t tid).length := by
  unfold scanType
  cases lookupPattern tid with
  | none => simp
  | some pe =>
    apply length_filterMap_mono
    intro rm b hb
    by_cases hc : pe.validator rm t < t2
    · rw [if_pos hc] at hb; cases hb
    · have hc1 : ¬ pe.validator rm t < t1 := fun hlt => hc (Nat.lt_of_lt_of_le hlt h)
      exact ⟨_, if_neg hc1⟩

/-- Count monotonicity of the whole aggregation loop in the threshold. -/
theorem countIn_detectLoop_mono {t1 t2 : Nat} (h : t1 ≤ t2) (t : Text) :
    ∀ (tys : List String) (acc1 acc2 : List (String × List MatchEntry)),
      (∀ tid, countIn acc2 tid ≤ countIn acc1 tid) →
      ∀ tid, countIn (detectLoop t2 t tys acc2) tid ≤ countIn (detectLoop t1 t tys acc1) tid := by
  intro tys
  induction tys with
  | nil =>
    intro acc1 acc2 hacc tid
    exact hacc tid
  | cons tid0 rest ih =>
    intro acc1 acc2 hacc tid
    unfold detectLoop
    refine ih _ _ ?_ tid
    intro tid2
    rw [countIn_step, countIn_step]
    have h1 := hacc tid2
    by_cases h0 : tid0 = tid2
    · rw [if_pos h0, if_pos h0]
      exact Nat.add_le_add h1 (scanType_length_mono h t tid0)
    · rw [if_neg h0, if_neg h0]
      simpa using h1

/- ---------------------------------------------------------------------
Structural lemmas about the password rule
--------------------------------------------------------------------- -/

/-- A successful password-rule continuation pins down the raw match: the
capture starts after the separator and the whitespace run, is 6 to 20
credential characters long, and is the group of the match. -/
theorem pwAfterLabel_spec {t : Text} {i labLen : Nat} {rm : RawMatch}
    (h : pwAfterLabel t i labLen = some rm) :
    (∃ c, t.get? (i + labLen) = some c ∧ pwSepChar c = true) ∧
    6 ≤ pwCapLen t (pwCapStart t (i + labLen + 1)) ∧
    rm = ⟨i,
      pwCapStart t (i + labLen + 1) + pwCapLen t (pwCapStart t (i + labLen + 1)),
      some (pwCapStart t (i + labLen + 1),
        pwCapStart t (i + labLen + 1) + pwCapLen t (pwCapStart t (i + labLen + 1)))⟩ := by
  unfold pwAfterLabel at h
  split at h
  next c hc =>
    split at h
    next hsep =>
      split at h
      next hcap => exact ⟨⟨c, hc, hsep⟩, hcap, (Option.some_inj.mp h).symm⟩
      next => cases h
    next => cases h
  next => cases h

/-- A password-rule match at position i comes from one of the three labels
matching there (case-insensitively) with a successful continuation. -/
theorem passwordMatchAt_spec {t : Text} {i : Nat} {rm : RawMatch}
    (h : passwordMatchAt t i = some rm) :
    ∃ lab ∈ pwLabels, litAtCI t i lab = true ∧ pwAfterLabel t i lab.length = some rm := by
  obtain ⟨lab, hlab, hfl⟩ := findSome?_some_ex h
  by_cases hci : litAtCI t i lab = true
  · rw [if_pos hci] at hfl
    exact ⟨lab, hlab, hci, hfl⟩
  · rw [if_neg hci] at hfl; cases hfl

/-- The captured credential consists of credential-class characters only. -/
theorem slice_capture_all (t : Text) (q : Nat) :
    (slice t q (q + pwCapLen t q)).all pwChar = true := by
  unfold slice pwCapLen runLen
  rw [Nat.add_sub_cancel_left]
  exact all_take_of_le_takeWhile pwChar (t.drop q) _ (Nat.min_le_left _ _)

/-- The captured credential has exactly the capture's length. -/
theorem slice_capture_length (t : Text) (q : Nat) :
    (slice t q (q + pwCapLen t q)).length = pwCapLen t q := by
  unfold slice
  rw [Nat.add_sub_cancel_left, List.length_take]
  have h1 : pwCapLen t q ≤ (t.drop q).length := by
    unfold pwCapLen runLen
    exact Nat.le_trans (Nat.min_le_left _ _) (length_takeWhile_le pwChar (t.drop q))
  exact Nat.min_eq_left h1

/- ---------------------------------------------------------------------
Claim theorems
--------------------------------------------------------------------- -/

/-- Claim C1 (code bug evaluation).  The claim states that a text in which
+86 or 86 is immediately followed by an 11-digit mobile number yields a
phone match at the default threshold 50.  The source's phone rule places
the lookbehind (?<!\d) after the optional country-code group, so the
prefix's final digit 6 always falsifies the assertion: with the prefix
present and adjacent, no match at all is found, while the bare number does
match (confidence 80). -/
theorem claim_C1_phone_prefix_failing_eval :
    detect_sensitive_info defaultDetector (some ("+8613812345678".data)) (some ["phone"]) =
      .ok [] ∧
    detect_sensitive_info defaultDetector (some ("8613812345678".data)) (some ["phone"]) =
      .ok [] ∧
    detect_sensitive_info defaultDetector (some ("13812345678".data)) (some ["phone"]) =
      .ok [("phone",
        [⟨"13812345678".data, 0, 11, "【13812345678】".data, 80⟩])] :=
  ⟨rfl, rfl, rfl⟩

/-- Claim C2 (counterexample).  The claim asserts exclusion of the
placeholder number 13800138000 for every threshold 0 ≤ t ≤ 50.  Threshold 0
is accepted by set_confidence_threshold, and at threshold 0 the scored-0
placeholder match passes the filter confidence < threshold and is reported,
so the claim fails at t = 0. -/
theorem claim_C2_counterexample :
    set_confidence_threshold defaultDetector 0 = .ok ⟨patternIds, 0⟩ ∧
    detect_sensitive_info ⟨patternIds, 0⟩ (some ("13800138000".data)) (some ["phone"]) =
      .ok [("phone",
        [⟨"13800138000".data, 0, 11, "【13800138000】".data, 0⟩])] :=
  ⟨rfl, rfl⟩

/-- Claim C2 (amended).  For every threshold t with 1 ≤ t ≤ 50 and every
text: a phone-rule match whose value is the placeholder 13800138000 with no
phone context keyword in the 20-character window is scored 0 by the
validator, and no such match appears in the result of
detect_sensitive_info. -/
theorem claim_C2_amended (t : Text) (thr : Nat) (h1 : 1 ≤ thr) (h2 : thr ≤ 50) :
    (∀ rm : RawMatch, slice t rm.s rm.e = "13800138000".data →
      anyKeyword phoneKeywords (getContextText t rm.s rm.e 20) = false →
      validatePhone rm t = 0)
    ∧ (∀ (en : List String) res,
        detect_sensitive_info ⟨en, thr⟩ (some t) (some ["phone"]) = .ok res →
        ∀ ms, ("phone", ms) ∈ res → ∀ m ∈ ms,
          ¬(m.value = "13800138000".data ∧
            anyKeyword phoneKeywords (getContextText t m.start m.stop 20) = false)) := by
  have hval0 : ∀ rm : RawMatch, slice t rm.s rm.e = "13800138000".data →
      anyKeyword phoneKeywords (getContextText t rm.s rm.e 20) = false →
      validatePhone rm t = 0 := by
    intro rm hv hk
    unfold validatePhone
    rw [hv, hk]
    decide
  refine ⟨hval0, ?_⟩
  rintro en res hd ms hms m hm ⟨hmv, hmk⟩
  have h3 := mem_detect hd hms hm
  obtain ⟨pe, rm, hlk, _, hle, hmeq⟩ := mem_scanType h3
  have hpe : pe = phoneEntry := by
    have h4 : lookupPattern "phone" = some phoneEntry := rfl
    rw [h4] at hlk
    exact (Option.some_inj.mp hlk).symm
  subst hpe
  rw [entryOf_ne_password (by decide)] at hmeq
  subst hmeq
  have h0 : validatePhone rm t = 0 := hval0 rm hmv hmk
  have hle2 : thr ≤ validatePhone rm t := hle
  rw [h0] at hle2
  omega

/-- Claim C2 (witness).  The amended statement applied at threshold 50 to the
bare placeholder text: the validator scores the match 0. -/
theorem claim_C2_witness :
    validatePhone ⟨0, 11, none⟩ ("13800138000".data) = 0 :=
  (claim_C2_amended ("13800138000".data) 50 (by decide) (by decide)).1
    ⟨0, 11, none⟩ (by decide) (by decide)

/-- Claim C3 (counterexample).  The claim asserts an UnknownTypeError for
every text when the requested types contain the unregistered id ssn; but
for empty or whitespace-only text the source returns the empty mapping
before validating the requested types, so no error is raised. -/
theorem claim_C3_counterexample :
    detect_sensitive_info defaultDetector (some ("".data)) (some ["ssn"]) = .ok [] ∧
    detect_sensitive_info defaultDetector (some ("   ".data)) (some ["ssn"]) = .ok [] :=
  ⟨rfl, rfl⟩

/-- Claim C3 (amended).  For every text that is not empty nor entirely
whitespace, requesting a type set containing an identifier absent from the
pattern registry makes detect_sensitive_info fail with the unknown-type
error and return no result, and enabling such a set via set_enabled_types
fails with the same error. -/
theorem claim_C3_amended (d : Detector) (t : Text) (hne : ¬ pyStrip t = [])
    (tys : List String) (tid : String) (htid : tid ∈ tys)
    (hreg : isRegistered tid = false) :
    (∃ msg, detect_sensitive_info d (some t) (some tys) = .error msg) ∧
    (∃ msg, set_enabled_types d tys = .error msg) := by
  have hfind : ∃ bad, tys.find? (fun x => !isRegistered x) = some bad := by
    cases hf : tys.find? (fun x => !isRegistered x) with
    | some bad => exact ⟨bad, rfl⟩
    | none =>
      exfalso
      have h5 := List.find?_eq_none.mp hf tid htid
      rw [hreg] at h5
      simp at h5
  obtain ⟨bad, hf⟩ := hfind
  obtain ⟨en, thr⟩ := d
  constructor
  · refine ⟨"无效的敏感信息类型ID: " ++ bad, ?_⟩
    rw [detect_some_eq, if_neg hne]
    show detectValidated thr t tys = _
    unfold detectValidated
    rw [hf]
  · refine ⟨"无效的敏感信息类型ID: " ++ bad, ?_⟩
    unfold set_enabled_types
    rw [hf]

/-- Claim C3 (witness).  The amended statement applied to a non-blank text
and the requested set containing ssn. -/
theorem claim_C3_witness :
    (∃ msg, detect_sensitive_info defaultDetector (some ("hello".data)) (some ["ssn"]) =
      .error msg) ∧
    (∃ msg, set_enabled_types defaultDetector ["ssn"] = .error msg) :=
  claim_C3_amended defaultDetector ("hello".data) (by decide) ["ssn"] "ssn"
    (by decide) (by decide)

/-- Claim C4.  For every text and configuration, every match in the mapping
returned by detect_sensitive_info has confidence at least the configuration's
confidence threshold at the time of the call. -/
theorem claim_C4_threshold_invariant (d : Detector) (text : Option Text)
    (it : Option (List String)) (res : List (String × List MatchEntry))
    (hd : detect_sensitive_info d text it = .ok res)
    (tid : String) (ms : List MatchEntry) (hms : (tid, ms) ∈ res)
    (m : MatchEntry) (hm : m ∈ ms) :
    d.confidence_threshold ≤ m.confidence := by
  obtain ⟨en, thr⟩ := d
  cases text with
  | none =>
    rw [show detect_sensitive_info ⟨en, thr⟩ none it = Except.ok [] from rfl] at hd
    injection hd with hd
    subst hd
    cases hms
  | some t =>
    have h1 := mem_detect hd hms hm
    obtain ⟨pe, rm, _, _, hle, hmeq⟩ := mem_scanType h1
    show thr ≤ m.confidence
    rw [hmeq, entryOf_confidence]
    exact hle

/-- Claim C4 (witness).  Applied to the bare mobile number at the default
threshold 50: its reported confidence 80 is at least the threshold. -/
theorem claim_C4_witness : defaultDetector.confidence_threshold ≤ 80 :=
  claim_C4_threshold_invariant defaultDetector (some ("13812345678".data)) (some ["phone"])
    [("phone", [⟨"13812345678".data, 0, 11, "【13812345678】".data, 80⟩])] rfl
    "phone" [⟨"13812345678".data, 0, 11, "【13812345678】".data, 80⟩] (by decide)
    ⟨"13812345678".data, 0, 11, "【13812345678】".data, 80⟩ (by decide)

/-- Claim C5.  Threshold monotonicity: for a fixed text and enabled-type
set and thresholds t1 ≤ t2 (both within [0,100]), for every type identifier
the number of matches returned at threshold t2 is at most the number
returned at threshold t1. -/
theorem claim_C5_monotonic (en : List String) (t1 t2 : Nat) (h12 : t1 ≤ t2)
    (_hb : t2 ≤ 100) (text : Option Text) (it : Option (List String))
    (r1 r2 : List (String × List MatchEntry))
    (e1 : detect_sensitive_info ⟨en, t1⟩ text it = .ok r1)
    (e2 : detect_sensitive_info ⟨en, t2⟩ text it = .ok r2) (tid : String) :
    countIn r2 tid ≤ countIn r1 tid := by
  cases text with
  | none =>
    rw [show detect_sensitive_info ⟨en, t1⟩ none it = Except.ok [] from rfl] at e1
    rw [show detect_sensitive_info ⟨en, t2⟩ none it = Except.ok [] from rfl] at e2
    injection e1 with e1
    injection e2 with e2
    subst e1
    subst e2
    exact Nat.le_refl _
  | some t =>
    rw [detect_some_eq] at e1
    rw [detect_some_eq] at e2
    by_cases hstrip : pyStrip t = []
    · rw [if_pos hstrip] at e1 e2
      injection e1 with e1
      injection e2 with e2
      subst e1
      subst e2
      exact Nat.le_refl _
    · rw [if_neg hstrip] at e1 e2
      cases it with
      | none =>
        injection e1 with e1
        injection e2 with e2
        subst e1
        subst e2
        exact countIn_detectLoop_mono h12 t en [] [] (fun _ => Nat.le_refl _) tid
      | some tys =>
        replace e1 : detectValidated t1 t tys = Except.ok r1 := e1
        replace e2 : detectValidated t2 t tys = Except.ok r2 := e2
        unfold detectValidated at e1 e2
        cases hf : tys.find? (fun x => !isRegistered x) with
        | some bad =>
          rw [hf] at e1
          cases e1
        | none =>
          rw [hf] at e1 e2
          injection e1 with e1
          injection e2 with e2
          subst e1
          subst e2
          exact countIn_detectLoop_mono h12 t tys [] [] (fun _ => Nat.le_refl _) tid

/-- Claim C5 (witness).  Applied to the bare mobile number with thresholds
50 ≤ 90: one match at 50, none at 90. -/
theorem claim_C5_witness :
    countIn [] "phone" ≤
      countIn [("phone", [⟨"13812345678".data, 0, 11, "【13812345678】".data, 80⟩])]
        "phone" :=
  claim_C5_monotonic patternIds 50 90 (by decide) (by decide)
    (some ("13812345678".data)) (some ["phone"])
    [("phone", [⟨"13812345678".data, 0, 11, "【13812345678】".data, 80⟩])] [] rfl rfl
    "phone"

/-- Claim C6.  Luhn correctness: at the default threshold 50 with no card
context keyword, 4111 1111 1111 1111 passes the checksum and is reported at
confidence 80, 4111 1111 1111 1112 fails the checksum, is scored 0 and
excluded; with the keyword 卡号 in the 20-character window the failing
number is reported at confidence 100. -/
theorem claim_C6_luhn :
    detect_sensitive_info defaultDetector (some ("4111 1111 1111 1111".data))
      (some ["credit_card"]) =
      .ok [("credit_card",
        [⟨"4111 1111 1111 1111".data, 0, 19, "【4111 1111 1111 1111】".data, 80⟩])] ∧
    luhnSum (("4111111111111111".data).map charDigit) % 10 = 0 ∧
    detect_sensitive_info defaultDetector (some ("4111 1111 1111 1112".data))
      (some ["credit_card"]) = .ok [] ∧
    luhnSum (("4111111111111112".data).map charDigit) % 10 ≠ 0 ∧
    detect_sensitive_info defaultDetector (some ("卡号4111 1111 1111 1112".data))
      (some ["credit_card"]) =
      .ok [("credit_card",
        [⟨"4111 1111 1111 1112".data, 2, 21, "卡号【4111 1111 1111 1112】".data, 100⟩])] :=
  ⟨rfl, rfl, rfl, by decide, rfl⟩

/-- Claim C7.  Password capture: every match detect_sensitive_info reports
for the password type has as value exactly the captured credential (6 to 20
credential-class characters), its offsets span exactly that credential, and
the credential is preceded by a password label and a separator which lie
strictly before the reported start offset. -/
theorem claim_C7_password_capture (t : Text) (en : List String) (thr : Nat)
    (res : List (String × List MatchEntry))
    (hd : detect_sensitive_info ⟨en, thr⟩ (some t) (some ["password"]) = .ok res)
    (ms : List MatchEntry) (hms : ("password", ms) ∈ res)
    (m : MatchEntry) (hm : m ∈ ms) :
    6 ≤ m.value.length ∧ m.value.length ≤ 20 ∧ m.value.all pwChar = true ∧
    m.stop = m.start + m.value.length ∧ m.value = slice t m.start m.stop ∧
    ∃ lab ∈ pwLabels, ∃ i, litAtCI t i lab = true ∧
      (∃ c, t.get? (i + lab.length) = some c ∧ pwSepChar c = true) ∧
      i + lab.length + 1 ≤ m.start := by
  have h1 := mem_detect hd hms hm
  obtain ⟨pe, rm, hlk, hrm, _, hmeq⟩ := mem_scanType h1
  have hpe : pe = passwordEntry := by
    have h4 : lookupPattern "password" = some passwordEntry := rfl
    rw [h4] at hlk
    exact (Option.some_inj.mp hlk).symm
  subst hpe
  obtain ⟨j, hj⟩ := mem_finditer hrm
  obtain ⟨lab, hlab, hci, hafter⟩ := passwordMatchAt_spec hj
  obtain ⟨hsepex, hcap, hrmeq⟩ := pwAfterLabel_spec hafter
  subst hrmeq
  rw [entryOf_password_grp rfl] at hmeq
  subst hmeq
  refine ⟨?_, ?_, ?_, ?_, rfl, lab, hlab, j, hci, hsepex, ?_⟩
  · show 6 ≤ (slice t _ (_ + pwCapLen t _)).length
    rw [slice_capture_length]
    exact hcap
  · show (slice t _ (_ + pwCapLen t _)).length ≤ 20
    rw [slice_capture_length]
    exact Nat.min_le_right _ _
  · exact slice_capture_all t _
  · show _ + pwCapLen t _ = _ + (slice t _ (_ + pwCapLen t _)).length
    rw [slice_capture_length]
  · show j + lab.length + 1 ≤ pwCapStart t (j + lab.length + 1)
    exact Nat.le_add_right _ _

/-- Claim C7 (witness).  The text 密码：Admin@123456 yields exactly the
password match whose value is Admin@123456, spanning offsets 3 to 15. -/
theorem claim_C7_witness :
    6 ≤ ("Admin@123456".data).length ∧ ("Admin@123456".data).length ≤ 20 ∧
    ("Admin@123456".data).all pwChar = true ∧
    (15 : Nat) = 3 + ("Admin@123456".data).length ∧
    "Admin@123456".data = slice ("密码：Admin@123456".data) 3 15 ∧
    ∃ lab ∈ pwLabels, ∃ i, litAtCI ("密码：Admin@123456".data) i lab = true ∧
      (∃ c, ("密码：Admin@123456".data).get? (i + lab.length) = some c ∧
        pwSepChar c = true) ∧
      i + lab.length + 1 ≤ 3 :=
  claim_C7_password_capture ("密码：Admin@123456".data) patternIds 50
    [("password",
      [⟨"Admin@123456".data, 3, 15, "密码：【Admin@123456】".data, 100⟩])] rfl
    [⟨"Admin@123456".data, 3, 15, "密码：【Admin@123456】".data, 100⟩] (by decide)
    ⟨"Admin@123456".data, 3, 15, "密码：【Admin@123456】".data, 100⟩ (by decide)

/-- Claim C8.  Empty input short-circuit: for every configuration, calling
detect_sensitive_info with an empty or entirely-whitespace text returns the
empty mapping without error. -/
theorem claim_C8_empty_input (d : Detector) (t : Text) (h : pyStrip t = [])
    (it : Option (List String)) :
    detect_sensitive_info d (some t) it = .ok [] := by
  obtain ⟨en, thr⟩ := d
  rw [detect_some_eq, if_pos h]

/-- Claim C8 (witness).  Applied to the empty string and to three spaces. -/
theorem claim_C8_witness :
    (pyStrip ("".data) = [] ∧
      detect_sensitive_info defaultDetector (some ("".data)) none = .ok []) ∧
    (pyStrip ("   ".data) = [] ∧
      detect_sensitive_info defaultDetector (some ("   ".data)) (some ["phone"]) = .ok []) :=
  ⟨⟨by decide, claim_C8_empty_input defaultDetector ("".data) (by decide) none⟩,
   ⟨by decide, claim_C8_empty_input defaultDetector ("   ".data) (by decide)
      (some ["phone"])⟩⟩

/-- Claim C9.  With any threshold of at least 1, every reported credit_card
match has, after removing spaces and hyphens from its value, only digits and
between 16 and 19 of them (the validator scores any other shape 0 before the
context-keyword boost, and 0 never reaches a positive threshold). -/
theorem claim_C9_card_length (d : Detector) (hthr : 1 ≤ d.confidence_threshold)
    (text : Option Text) (it : Option (List String))
    (res : List (String × List MatchEntry))
    (hd : detect_sensitive_info d text it = .ok res)
    (ms : List MatchEntry) (hms : ("credit_card", ms) ∈ res)
    (m : MatchEntry) (hm : m ∈ ms) :
    (stripCard m.value).all (fun c => c.isDigit) = true ∧
    16 ≤ (stripCard m.value).length ∧ (stripCard m.value).length ≤ 19 := by
  obtain ⟨en, thr⟩ := d
  cases text with
  | none =>
    rw [show detect_sensitive_info ⟨en, thr⟩ none it = Except.ok [] from rfl] at hd
    injection hd with hd
    subst hd
    cases hms
  | some t =>
    have h1 := mem_detect hd hms hm
    obtain ⟨pe, rm, hlk, _, hle, hmeq⟩ := mem_scanType h1
    have hpe : pe = creditCardEntry := by
      have h4 : lookupPattern "credit_card" = some creditCardEntry := rfl
      rw [h4] at hlk
      exact (Option.some_inj.mp hlk).symm
    subst hpe
    rw [entryOf_ne_password (by decide)] at hmeq
    subst hmeq
    have hthr2 : 1 ≤ thr := hthr
    have hconf : 1 ≤ validateCreditCard rm t := Nat.le_trans hthr2 hle
    have hfmt : ccFormatOk (stripCard (slice t rm.s rm.e)) = true := by
      by_contra hno
      have h0 : validateCreditCard rm t = 0 := by
        unfold validateCreditCard
        rw [if_pos hno]
      omega
    simp only [ccFormatOk, Bool.and_eq_true, decide_eq_true_eq] at hfmt
    exact ⟨hfmt.1.1, hfmt.1.2, hfmt.2⟩

/-- Claim C9 (witness).  Applied to the reported match for
4111 1111 1111 1111 at the default threshold: its stripped value is 16
digits. -/
theorem claim_C9_witness :
    (stripCard ("4111 1111 1111 1111".data)).all (fun c => c.isDigit) = true ∧
    16 ≤ (stripCard ("4111 1111 1111 1111".data)).length ∧
    (stripCard ("4111 1111 1111 1111".data)).length ≤ 19 :=
  claim_C9_card_length defaultDetector (by decide)
    (some ("4111 1111 1111 1111".data)) (some ["credit_card"])
    [("credit_card",
      [⟨"4111 1111 1111 1111".data, 0, 19, "【4111 1111 1111 1111】".data, 80⟩])] rfl
    [⟨"4111 1111 1111 1111".data, 0, 19, "【4111 1111 1111 1111】".data, 80⟩] (by decide)
    ⟨"4111 1111 1111 1111".data, 0, 19, "【4111 1111 1111 1111】".data, 80⟩ (by decide)

/-- Claim C10.  A missing text value: detect_sensitive_info called with no
text returns the empty mapping for every configuration, the same behaviour
as for empty or whitespace-only text, instead of raising an error. -/
theorem claim_C10_none_text (d : Detector) (it : Option (List String)) :
    detect_sensitive_info d none it = .ok [] := rfl

end SensitiveInfo
